import Mathlib

/-!
Shallow embedding of the reconciliation/categorization engine in `src/run.ts`
(and its helpers in `src/util.ts`) of the lunchmoney-amazon repository.

Modelling conventions:
* Monetary amounts appear in the source as strings run through `parseFloat`;
  we embed the parsed value as an exact fixed-point number with four
  fractional digits (`Amount`, units of 1/10000 dollar — ample for the money
  strings this tool parses).  The normalization `parseFloat(x).toFixed(2)` is
  embedded as the integer number of cents after rounding half-up (`toFixed2`);
  two amounts produce the same `toFixed(2)` string exactly when they produce
  the same cent count (floating-point noise on the parse is outside the
  embedding).
* Dates appear in the source as date-only strings; `new Date(s)` followed by
  `dateFns.differenceInDays` yields a whole-day difference, so a date is
  embedded as an integer day number and the difference as integer subtraction.
* JS strings are embedded as Lean `String`s; `substring(0, n)`, `includes`,
  `trim`, `toLowerCase` are embedded over the character sequence (`strTruncate`,
  `strIncludes`, `jsTrim`, `jsToLower`) — equivalent for the
  basic-multilingual-plane text this tool processes.
* The OpenAI chat call in `aiTransactionSummary` is an external collaborator:
  its observable behaviour at the parse site is embedded as `AIResponseText`
  (missing/empty content, content that `JSON.parse` rejects, or a parsed
  object).  `JSON.parse` of invalid content throws, so the embedded function
  returns `Except Unit _` with `.error ()` standing for the propagated
  exception.  The `id` field of the parsed object is embedded post
  `parseInt(_, 10)` (`none` for a NaN result).
* `lunchMoney.updateTransaction` calls are captured as `UpdateCall` values
  rather than performed; a run result carries the list of issued calls.
-/

namespace LunchmoneyAmazon

/-- JS `pat` occurs contiguously inside `l` (substring containment on the
character sequence). -/
def listHasSub [BEq α] (pat : List α) : List α → Bool
  | [] => pat.isEmpty
  | a :: t => pat.isPrefixOf (a :: t) || listHasSub pat t

/-- JS `s.includes(pat)`. -/
def strIncludes (s pat : String) : Bool :=
  listHasSub pat.data s.data

/-- JS `s.substring(0, n)`: the first `n` characters of `s`. -/
def strTruncate (n : Nat) (s : String) : String :=
  String.mk (s.data.take n)

/-- JS `s.trim()`: whitespace stripped from both ends. -/
def jsTrim (s : String) : String :=
  String.mk
    (((s.data.dropWhile Char.isWhitespace).reverse.dropWhile Char.isWhitespace).reverse)

/-- JS `s.toLowerCase()`. -/
def jsToLower (s : String) : String :=
  String.mk (s.data.map Char.toLower)

/-- A `parseFloat` result on the money fields, in fixed point with four
fractional digits (units of 1/10000 dollar). -/
abbrev Amount := Int

/-- A row of the Amazon order-history export (`AmazonTransaction` in
`src/util.ts`).  `date` is the parsed order date as a day number and `total`
is `parseFloat(total)` as an `Amount`; the remaining sub-amount fields are
never read by the engine and stay as raw strings.  The source field `to` (the recipient) is
named `recipient` here because `to` is a Lean keyword. -/
structure AmazonTransaction where
  orderid : String
  items : String
  categories : String
  recipient : String
  date : Int
  total : Amount
  shipping : String
  shipping_refund : String
  gift : String
  tax : String
  refund : String
  payments : String
deriving DecidableEq, Repr

/-- A Lunch Money ledger transaction, restricted to the fields `src/run.ts`
reads.  `amount` is `parseFloat(amount)` as an `Amount` and `date` a day
number. -/
structure LunchMoneyTransaction where
  id : Int
  payee : String
  amount : Amount
  date : Int
  category_id : Option Int
  notes : Option String
  is_group : Bool
  group_id : Option Int
deriving DecidableEq, Repr

/-- A Lunch Money category, restricted to the fields `src/run.ts` reads. -/
structure LunchMoneyCategory where
  id : Int
  name : String
  description : String
  is_income : Bool
  archived : Bool
  exclude_from_budget : Bool
  is_group : Bool
deriving DecidableEq, Repr

/-- `parseFloat(x).toFixed(2)` embedded as the number of cents after rounding
half-up: for an amount `a` in units of 1/10000 dollar the cent value is
`a / 100`, and `⌊a / 100 + 1 / 2⌋ = ⌊(2 * a + 100) / 200⌋` computed with
floor division. -/
def toFixed2 (a : Amount) : Int :=
  Int.fdiv (2 * a + 100) 200

/-- The candidate filter of `findMatchingLunchMoneyTransaction`
(src/run.ts:271-275): records whose normalized total equals the normalized
ledger amount.  (The payments text is not consulted.) -/
def possibleMatchesFor (txn : LunchMoneyTransaction)
    (pool : List AmazonTransaction) : List AmazonTransaction :=
  pool.filter fun a => toFixed2 a.total == toFixed2 txn.amount

/-- Absolute day difference between the ledger date and an order date
(`Math.abs(dateFns.differenceInDays(parsedDate, new Date(one.date)))`). -/
def dayDiff (txnDate orderDate : Int) : Nat :=
  (txnDate - orderDate).natAbs

/-- Insert `x` into a list sorted ascending by `key`, before the first element
whose key is not smaller — the position a stable ascending sort gives an
element standing before the rest. -/
def insertByKey (key : α → Nat) (x : α) : List α → List α
  | [] => [x]
  | y :: ys => if key y < key x then y :: insertByKey key x ys else x :: y :: ys

/-- `Array.prototype.sort` with comparator `key one - key two`: ECMAScript
specifies the result to be sorted and stable, which determines it uniquely;
we embed it as a stable insertion sort. -/
def stableSortByKey (key : α → Nat) : List α → List α
  | [] => []
  | x :: xs => insertByKey key x (stableSortByKey key xs)

/-- The first element of `l` attaining the minimal key (the head of a stable
ascending sort of `l`). -/
def firstMinByKey (key : α → Nat) : List α → Option α
  | [] => none
  | x :: xs =>
    match firstMinByKey key xs with
    | none => some x
    | some m => if key m < key x then some m else some x

/-- `findMatchingLunchMoneyTransaction` (src/run.ts:259-298).  Returns the
record removed from the pool (the return value of `splice`) together with the
remaining pool; `none` when no candidate matches.  The removal index is the
first pool position whose trimmed order id equals the trimmed order id of the
head of the sorted candidate list.  The two `none` fallbacks mirror
unreachable situations (`sort` of a non-empty array is non-empty, and the
searched order id always occurs in the pool). -/
def findMatchingLunchMoneyTransaction (txn : LunchMoneyTransaction)
    (pool : List AmazonTransaction) :
    Option (AmazonTransaction × List AmazonTransaction) :=
  let possibleMatches := possibleMatchesFor txn pool
  if possibleMatches.isEmpty then
    none
  else
    match stableSortByKey (fun a => dayDiff txn.date a.date) possibleMatches with
    | [] => none
    | m :: _ =>
      let idx := pool.findIdx fun a => jsTrim a.orderid == jsTrim m.orderid
      match pool[idx]? with
      | none => none
      | some removed => some (removed, pool.eraseIdx idx)

/-- The construction of the `ownerNames` global (src/run.ts:300-302):
each CLI-supplied name lowercased then trimmed. -/
def normalizeOwnerNames (raw : List String) : List String :=
  raw.map fun n => jsTrim (jsToLower n)

/-- `orderIsGift` (src/run.ts:304-311).  In the source the guard is
`!ownerNames || !transaction.to || transaction.to === "0"`; `ownerNames` is
always an array when this function runs (a missing CLI flag crashes earlier at
`options.ownerNames.map`), and `![]` is `false` in JS, so the first disjunct
never fires and is dropped.  `!transaction.to` is true exactly for the empty
string. -/
def orderIsGift (ownerNames : List String) (t : AmazonTransaction) : Bool :=
  if t.recipient == "" || t.recipient == "0" then
    false
  else
    !(ownerNames.contains (jsTrim (jsToLower t.recipient)))

/-- The parsed result of the external categorizer call, as `aiTransactionSummary`
returns it. -/
structure AITransactionSummary where
  id : Option Int
  summary : String
deriving DecidableEq, Repr

/-- Observable shape of the chat-completion text at the parse site of
`aiTransactionSummary`: `noContent` for a null/empty `message.content`,
`invalidJson` for content `JSON.parse` rejects, `parsed idField summary` for a
parsed object (`idField` is the `parseInt(parsedResponse.id, 10)` result,
`none` when NaN). -/
inductive AIResponseText where
  | noContent
  | invalidJson
  | parsed (idField : Option Int) (summary : String)
deriving DecidableEq, Repr

/-- The `promptCategories` filter (src/run.ts:65-72): categories passed to the
external categorizer. -/
def promptCategoriesOf (cats : List LunchMoneyCategory) : List LunchMoneyCategory :=
  cats.filter fun c => !c.is_income && !c.archived && !c.exclude_from_budget && !c.is_group

/-- `aiTransactionSummary` (src/run.ts:118-144).  Missing content returns
`{id: null, summary: ""}`; `JSON.parse` of invalid content throws, embedded as
`.error ()` — there is no try/catch around it, so the exception propagates.
A NaN id or an id outside `promptCategories` degrades to a null id with the
summary retained. -/
def aiTransactionSummary (promptCategories : List LunchMoneyCategory)
    (response : AIResponseText) : Except Unit AITransactionSummary :=
  match response with
  | .noContent => .ok { id := none, summary := "" }
  | .invalidJson => .error ()
  | .parsed idField summary =>
    match idField with
    | none => .ok { id := none, summary := summary }
    | some chosenId =>
      if promptCategories.any fun c => c.id == chosenId then
        .ok { id := some chosenId, summary := summary }
      else
        .ok { id := none, summary := summary }

/-- `categoryNameToId` (src/run.ts:147-151): id of the first non-group
category carrying the name. -/
def categoryNameToId (cats : List LunchMoneyCategory) (categoryName : String) :
    Option Int :=
  (cats.find? fun c => !c.is_group && c.name == categoryName).map fun c => c.id

/-- `LUNCHMONEY_NOTE_LIMIT` (src/run.ts:18). -/
def LUNCHMONEY_NOTE_LIMIT : Nat := 350

/-- The note synthesis of the main loop (src/run.ts:366-377):
`` `#${orderid} ${notes || ""}`.trim() ``, then `+= ". " + summary` when the
summary is truthy (non-null and non-empty), then `substring(0, 350)`. -/
def newNote (orderid : String) (existingNotes : Option String)
    (transactionSummary : Option String) : String :=
  let base := jsTrim ("#" ++ orderid ++ " " ++ existingNotes.getD "")
  let withSummary :=
    match transactionSummary with
    | some s => if s == "" then base else base ++ ". " ++ s
    | none => base
  strTruncate LUNCHMONEY_NOTE_LIMIT withSummary

/-- `shouldUpdateNote` (src/run.ts:379-381):
`!(notes || "").includes(orderid)`. -/
def shouldUpdateNote (existingNotes : Option String) (orderid : String) : Bool :=
  !(strIncludes (existingNotes.getD "") orderid)

/-- Run configuration: the dry-run flag, the resolved default category id, the
normalized owner names and the fetched category list. -/
structure Config where
  dryRun : Bool
  defaultCategoryId : Int
  ownerNames : List String
  categories : List LunchMoneyCategory
deriving Repr

/-- The gift/AI branch of the main loop (src/run.ts:345-364), producing the
pair `(targetCategoryName, transactionSummary)`.  A gift forces the fixed name
"Gifts" and leaves the summary null; otherwise the external categorizer is
consulted (`ai` maps the item text to the observable response; an exception
propagates).  `if (summaryResponse.id)` is JS truthiness, false for null and
for the number 0. -/
def deriveTarget (cfg : Config) (ai : String → AIResponseText)
    (m : AmazonTransaction) : Except Unit (Option String × Option String) :=
  if orderIsGift cfg.ownerNames m then
    .ok (some "Gifts", none)
  else
    match aiTransactionSummary (promptCategoriesOf cfg.categories) (ai m.items) with
    | .error e => .error e
    | .ok resp =>
      let summary := some resp.summary
      match resp.id with
      | some chosenId =>
        if chosenId != 0 then
          .ok (((promptCategoriesOf cfg.categories).find? fun c => c.id == chosenId).map (fun c => c.name),
               summary)
        else
          .ok (none, summary)
      | none => .ok (none, summary)

/-- An issued `lunchMoney.updateTransaction` call: the transaction id and the
fields of the update payload (`category_id` absent for the notes-only update,
`notes` absent when `shouldUpdateNote` is false). -/
structure UpdateCall where
  txnId : Int
  category_id : Option Int
  notes : Option String
deriving DecidableEq, Repr

/-- Result of processing one ledger transaction: the remaining order pool, the
record consumed from it (if any), the update call issued (if any), and whether
an external-categorizer exception aborted the run. -/
structure StepResult where
  pool : List AmazonTransaction
  matched : Option AmazonTransaction
  update : Option UpdateCall
  aborted : Bool
deriving DecidableEq, Repr

/-- The post-match part of a main-loop iteration (src/run.ts:326-438) for a
matched record `m`: the already-categorized check, the group check, gift/AI
target derivation, note synthesis and the update branches (both guarded by
`!options.dryRun`; the unresolved-target branch issues a notes-only update
when `shouldUpdateNote`, and an unresolvable target name issues nothing).
Returns the issued update call (if any) and whether an external-categorizer
exception aborted the run. -/
def decideUpdate (cfg : Config) (ai : String → AIResponseText)
    (txn : LunchMoneyTransaction) (m : AmazonTransaction) :
    Option UpdateCall × Bool :=
  if txn.category_id ≠ some cfg.defaultCategoryId then
    (none, false)
  else if txn.is_group || txn.group_id.isSome then
    (none, false)
  else
    match deriveTarget cfg ai m with
    | .error _ => (none, true)
    | .ok (targetCategoryName, transactionSummary) =>
      match targetCategoryName with
      | none =>
        if !cfg.dryRun && shouldUpdateNote txn.notes m.orderid then
          (some ⟨txn.id, none, some (newNote m.orderid txn.notes transactionSummary)⟩,
           false)
        else
          (none, false)
      | some name =>
        match categoryNameToId cfg.categories name with
        | none => (none, false)
        | some newCategoryId =>
          if !cfg.dryRun then
            (some ⟨txn.id, some newCategoryId,
              if shouldUpdateNote txn.notes m.orderid then
                some (newNote m.orderid txn.notes transactionSummary)
              else none⟩,
             false)
          else
            (none, false)

/-- One iteration of the main loop (src/run.ts:313-439) over
`uncategorizedLunchMoneyAmazonTransaction = txn` with the current order pool.
Order of operations mirrors the source: match (consuming the pool) first, then
all the per-transaction decisions of `decideUpdate`. -/
def processOne (cfg : Config) (ai : String → AIResponseText)
    (pool : List AmazonTransaction) (txn : LunchMoneyTransaction) : StepResult :=
  match findMatchingLunchMoneyTransaction txn pool with
  | none => ⟨pool, none, none, false⟩
  | some (m, pool') =>
    ⟨pool', some m, (decideUpdate cfg ai txn m).1, (decideUpdate cfg ai txn m).2⟩

/-- Result of a whole run: the (ledger id, order record) bindings made, the
update calls issued, the final order pool, and whether the run aborted on a
propagated exception. -/
structure RunResult where
  bindings : List (Int × AmazonTransaction)
  updates : List UpdateCall
  pool : List AmazonTransaction
  aborted : Bool
deriving DecidableEq, Repr

/-- The main loop (src/run.ts:313-439): ledger transactions processed
sequentially, the order pool threaded through.  An external-categorizer
exception aborts the run (the pool splice for the current transaction has
already happened by then). -/
def runAll (cfg : Config) (ai : String → AIResponseText) :
    List LunchMoneyTransaction → List AmazonTransaction → RunResult
  | [], pool => ⟨[], [], pool, false⟩
  | txn :: rest, pool =>
    let step := processOne cfg ai pool txn
    let stepMatches :=
      match step.matched with
      | some m => [(txn.id, m)]
      | none => []
    if step.aborted then
      ⟨stepMatches, step.update.toList, step.pool, true⟩
    else
      let r := runAll cfg ai rest step.pool
      ⟨stepMatches ++ r.bindings, step.update.toList ++ r.updates, r.pool, r.aborted⟩

/-! Spec-side definitions — formalizing claim wording that differs from the
code — and concrete fixtures used by witnesses and counterexamples. -/

/-- Renders a non-negative remainder of cents as two digits ("05", "50"). -/
def twoDigitCents (n : Nat) : String :=
  if n < 10 then "0" ++ toString n else toString n

/-- Renders a cent count the way `toFixed(2)` renders the normalized amount
("42.50"); used only by the spec-side candidate predicate of claim C1. -/
def centsToString (c : Int) : String :=
  (if c < 0 then "-" else "") ++ toString (c.natAbs / 100) ++ "." ++
    twoDigitCents (c.natAbs % 100)

/-- The candidate predicate exactly as claim C1 states it: the record total
equals the normalized ledger amount, **or** the payment-entries text contains
the normalized amount as a substring. -/
def candidateSpecC1 (txn : LunchMoneyTransaction) (a : AmazonTransaction) : Bool :=
  toFixed2 a.total == toFixed2 txn.amount ||
    strIncludes a.payments (centsToString (toFixed2 txn.amount))

/-- Builds an order record; the unused sub-amount fields are fixed to "0". -/
def mkOrder (oid recip : String) (d : Int) (tot : Amount) (pay : String) :
    AmazonTransaction :=
  ⟨oid, "assorted items", "", recip, d, tot, "0", "0", "0", "0", "0", pay⟩

/-- Builds a ledger transaction with payee "Amazon". -/
def mkTxn (i : Int) (amt : Amount) (d : Int) (cat : Option Int)
    (nts : Option String) (grp : Bool) (gid : Option Int) :
    LunchMoneyTransaction :=
  ⟨i, "Amazon", amt, d, cat, nts, grp, gid⟩

/-- Builds a plain expense category (no flags set). -/
def mkCategory (i : Int) (nm : String) : LunchMoneyCategory :=
  ⟨i, nm, "", false, false, false, false⟩

/-- An external-categorizer stub whose responses always have empty content. -/
def aiNoContent : String → AIResponseText := fun _ => AIResponseText.noContent

/-- C1 counterexample ledger transaction: amount 10.00. -/
def c1CexTxn : LunchMoneyTransaction := mkTxn 1 100000 0 (some 1) none false none

/-- C1 counterexample order: total 5.00, but payments text containing
"10.00". -/
def c1CexOrder : AmazonTransaction :=
  mkOrder "112-0000001" "0" 0 50000 "2024-01-01: $10.00; "

/-- C2 counterexample order: a genuine recipient. -/
def c2CexOrder : AmazonTransaction := mkOrder "112-0000002" "Bob" 0 10000 ""

/-- C4 counterexample ledger transaction: amount 42.50 on day 10. -/
def c4CexTxn : LunchMoneyTransaction := mkTxn 2 425000 10 (some 1) none false none

/-- C4 counterexample order on day 0 (day-difference 10), trimmed order id
"X-1" shared with `c4CexOrderNear`. -/
def c4CexOrderFar : AmazonTransaction := mkOrder "X-1" "0" 0 425000 ""

/-- C4 counterexample order on day 9 (day-difference 1), same order id. -/
def c4CexOrderNear : AmazonTransaction := mkOrder "X-1" "0" 9 425000 ""

/-- C4 witness ledger transaction: amount 42.50 on 2024-03-10 (day 19792). -/
def c4wTxn : LunchMoneyTransaction := mkTxn 3 425000 19792 (some 1) none false none

/-- C4 witness order: total 42.50 on 2024-03-08 (day 19790). -/
def c4wOrderMar08 : AmazonTransaction := mkOrder "114-0000008" "0" 19790 425000 ""

/-- C4 witness order: total 42.50 on 2024-03-09 (day 19791). -/
def c4wOrderMar09 : AmazonTransaction := mkOrder "114-0000009" "0" 19791 425000 ""

/-- C7 witness configuration: live run, default category 1, owner "alice",
categories Shopping (1) and Gifts (2). -/
def c7wConfig : Config :=
  ⟨false, 1, ["alice"], [mkCategory 1 "Shopping", mkCategory 2 "Gifts"]⟩

/-- C7 witness ledger transaction: eligible (default category, not a group). -/
def c7wTxn : LunchMoneyTransaction := mkTxn 7 425000 0 (some 1) none false none

/-- C7 witness order: a gift for "Bob". -/
def c7wOrder : AmazonTransaction := mkOrder "114-0007007" "Bob" 0 425000 ""

/-- C9 witness configuration. -/
def c9wConfig : Config := ⟨false, 1, [], [mkCategory 1 "Shopping"]⟩

/-- C9 witness group transaction (is_group set) that still matches. -/
def c9wGroupTxn : LunchMoneyTransaction := mkTxn 11 425000 0 (some 1) none true none

/-- C9 witness pending transaction with the same amount, processed second. -/
def c9wPendingTxn : LunchMoneyTransaction := mkTxn 12 425000 1 (some 1) none false none

/-- C9 witness order: the single pool record both transactions could match. -/
def c9wOrder : AmazonTransaction := mkOrder "114-0009009" "0" 0 425000 ""

/-- C10 witness configuration: no category named "Gifts" exists. -/
def c10wConfig : Config := ⟨false, 1, ["alice"], [mkCategory 1 "Shopping"]⟩

/-- C10 witness ledger transaction: eligible. -/
def c10wTxn : LunchMoneyTransaction := mkTxn 21 425000 0 (some 1) none false none

/-- C10 witness order: a gift, forcing the fixed target name "Gifts". -/
def c10wOrder : AmazonTransaction := mkOrder "114-0010010" "Bob" 0 425000 ""

/-! Helper lemmas shared by the claim theorems. -/

theorem length_insertByKey (key : α → Nat) (x : α) (l : List α) :
    (insertByKey key x l).length = l.length + 1 := by
  induction l with
  | nil => rfl
  | cons y ys ih =>
    simp only [insertByKey]
    split
    · simp [ih]
    · simp

theorem length_stableSortByKey (key : α → Nat) (l : List α) :
    (stableSortByKey key l).length = l.length := by
  induction l with
  | nil => rfl
  | cons x xs ih =>
    simp only [stableSortByKey, length_insertByKey, ih, List.length_cons]

theorem head?_stableSortByKey (key : α → Nat) (l : List α) :
    (stableSortByKey key l).head? = firstMinByKey key l := by
  induction l with
  | nil => rfl
  | cons x xs ih =>
    simp only [stableSortByKey, firstMinByKey]
    rw [← ih]
    cases h : stableSortByKey key xs with
    | nil => rfl
    | cons y ys =>
      by_cases hk : key y < key x
      · simp [insertByKey, hk]
      · simp [insertByKey, hk]

theorem firstMinByKey_mem (key : α → Nat) :
    ∀ (l : List α) (m : α), firstMinByKey key l = some m → m ∈ l := by
  intro l
  induction l with
  | nil => intro m h; simp [firstMinByKey] at h
  | cons x xs ih =>
    intro m h
    simp only [firstMinByKey] at h
    cases hx : firstMinByKey key xs with
    | none =>
      rw [hx] at h
      cases h
      exact List.mem_cons_self x xs
    | some m' =>
      rw [hx] at h
      have h' : (if key m' < key x then some m' else some x) = some m := h
      by_cases hk : key m' < key x
      · rw [if_pos hk] at h'
        cases h'
        exact List.mem_cons_of_mem x (ih _ hx)
      · rw [if_neg hk] at h'
        cases h'
        exact List.mem_cons_self x xs

theorem firstMinByKey_cons_ne_none (key : α → Nat) (x : α) (xs : List α) :
    firstMinByKey key (x :: xs) ≠ none := by
  simp only [firstMinByKey]
  cases firstMinByKey key xs with
  | none => simp
  | some m =>
    by_cases h : key m < key x
    · simp [h]
    · simp [h]

theorem firstMinByKey_le (key : α → Nat) :
    ∀ (l : List α) (m : α), firstMinByKey key l = some m →
      ∀ x ∈ l, key m ≤ key x := by
  intro l
  induction l with
  | nil => intro m h; simp [firstMinByKey] at h
  | cons x xs ih =>
    intro m h y hy
    simp only [firstMinByKey] at h
    cases hx : firstMinByKey key xs with
    | none =>
      rw [hx] at h
      cases h
      cases xs with
      | nil =>
        rcases List.mem_singleton.mp hy with rfl
        exact Nat.le_refl _
      | cons a t => exact absurd hx (firstMinByKey_cons_ne_none key a t)
    | some m' =>
      rw [hx] at h
      have h' : (if key m' < key x then some m' else some x) = some m := h
      by_cases hk : key m' < key x
      · rw [if_pos hk] at h'
        cases h'
        rcases List.mem_cons.mp hy with rfl | hy'
        · exact Nat.le_of_lt hk
        · exact ih _ hx _ hy'
      · rw [if_neg hk] at h'
        cases h'
        rcases List.mem_cons.mp hy with rfl | hy'
        · exact Nat.le_refl _
        · exact Nat.le_trans (Nat.le_of_not_lt hk) (ih _ hx _ hy')

theorem firstMinByKey_first (key : α → Nat) :
    ∀ (l : List α) (m : α), firstMinByKey key l = some m →
      ∃ j : Nat, l[j]? = some m ∧
        ∀ (k : Nat) (x : α), k < j → l[k]? = some x → key m < key x := by
  intro l
  induction l with
  | nil => intro m h; simp [firstMinByKey] at h
  | cons x xs ih =>
    intro m h
    simp only [firstMinByKey] at h
    cases hx : firstMinByKey key xs with
    | none =>
      rw [hx] at h
      cases h
      exact ⟨0, by simp, fun k y hk => absurd hk (Nat.not_lt_zero k)⟩
    | some m' =>
      rw [hx] at h
      have h' : (if key m' < key x then some m' else some x) = some m := h
      by_cases hk : key m' < key x
      · rw [if_pos hk] at h'
        cases h'
        obtain ⟨j, hj, hfirst⟩ := ih _ hx
        refine ⟨j + 1, by simpa using hj, ?_⟩
        intro k y hlt hky
        cases k with
        | zero =>
          simp only [List.getElem?_cons_zero, Option.some.injEq] at hky
          exact hky ▸ hk
        | succ k' =>
          simp only [List.getElem?_cons_succ] at hky
          exact hfirst k' y (Nat.lt_of_succ_lt_succ hlt) hky
      · rw [if_neg hk] at h'
        cases h'
        exact ⟨0, by simp, fun k y hlt => absurd hlt (Nat.not_lt_zero k)⟩

theorem perm_cons_eraseIdx (l : List α) (i : Nat) (x : α)
    (h : l[i]? = some x) : List.Perm (x :: l.eraseIdx i) l := by
  induction l generalizing i with
  | nil => simp at h
  | cons a t ih =>
    cases i with
    | zero =>
      simp only [List.getElem?_cons_zero, Option.some.injEq] at h
      subst h
      simp [List.eraseIdx]
    | succ j =>
      simp only [List.getElem?_cons_succ] at h
      have hp := ih j h
      calc
        List.Perm (x :: (a :: t).eraseIdx (j + 1)) (a :: x :: t.eraseIdx j) := by
          simp only [List.eraseIdx]
          exact List.Perm.swap a x (t.eraseIdx j)
        List.Perm (a :: x :: t.eraseIdx j) (a :: t) := List.Perm.cons a hp

theorem findMatching_eq_some (txn : LunchMoneyTransaction)
    (pool : List AmazonTransaction) (m : AmazonTransaction)
    (pool' : List AmazonTransaction)
    (h : findMatchingLunchMoneyTransaction txn pool = some (m, pool')) :
    ∃ i, pool[i]? = some m ∧ pool' = pool.eraseIdx i := by
  unfold findMatchingLunchMoneyTransaction at h
  simp only [] at h
  split at h
  · exact absurd h (by simp)
  · split at h
    · exact absurd h (by simp)
    · split at h
      · exact absurd h (by simp)
      · rename_i removed hget
        simp only [Option.some.injEq, Prod.mk.injEq] at h
        obtain ⟨h1, h2⟩ := h
        subst h1
        exact ⟨_, hget, h2.symm⟩

theorem processOne_matched_pool (cfg : Config) (ai : String → AIResponseText)
    (pool : List AmazonTransaction) (txn : LunchMoneyTransaction) :
    (processOne cfg ai pool txn).matched = none ∧
        (processOne cfg ai pool txn).pool = pool ∨
      ∃ m pool', findMatchingLunchMoneyTransaction txn pool = some (m, pool') ∧
        (processOne cfg ai pool txn).matched = some m ∧
        (processOne cfg ai pool txn).pool = pool' := by
  unfold processOne
  cases h : findMatchingLunchMoneyTransaction txn pool with
  | none => left; exact ⟨rfl, rfl⟩
  | some p =>
    right
    exact ⟨p.1, p.2, rfl, rfl, rfl⟩

theorem findMatching_nodup_spec (txn : LunchMoneyTransaction)
    (pool : List AmazonTransaction)
    (hnd : (pool.map fun a => jsTrim a.orderid).Nodup)
    (hne : possibleMatchesFor txn pool ≠ []) :
    ∃ sel i,
      firstMinByKey (fun a => dayDiff txn.date a.date)
        (possibleMatchesFor txn pool) = some sel ∧
      pool[i]? = some sel ∧
      findMatchingLunchMoneyTransaction txn pool = some (sel, pool.eraseIdx i) := by
  have hne' : (possibleMatchesFor txn pool).isEmpty = false := by
    cases hpm : possibleMatchesFor txn pool with
    | nil => exact absurd hpm hne
    | cons a l => rfl
  have hslen : (stableSortByKey (fun a => dayDiff txn.date a.date)
      (possibleMatchesFor txn pool)).length =
      (possibleMatchesFor txn pool).length :=
    length_stableSortByKey _ _
  cases hs : stableSortByKey (fun a => dayDiff txn.date a.date)
      (possibleMatchesFor txn pool) with
  | nil =>
    rw [hs] at hslen
    cases hpm : possibleMatchesFor txn pool with
    | nil => exact absurd hpm hne
    | cons a l => rw [hpm] at hslen; simp at hslen
  | cons m rest =>
    have hfm : firstMinByKey (fun a => dayDiff txn.date a.date)
        (possibleMatchesFor txn pool) = some m := by
      rw [← head?_stableSortByKey, hs]; rfl
    have hmp : m ∈ possibleMatchesFor txn pool := firstMinByKey_mem _ _ _ hfm
    have hmpool : m ∈ pool := List.mem_of_mem_filter hmp
    have hex : ∃ a ∈ pool, (jsTrim a.orderid == jsTrim m.orderid) = true :=
      ⟨m, hmpool, beq_self_eq_true _⟩
    have hidx : pool.findIdx (fun a => jsTrim a.orderid == jsTrim m.orderid) <
        pool.length := List.findIdx_lt_length_of_exists hex
    have hgetp : pool[pool.findIdx (fun a => jsTrim a.orderid == jsTrim m.orderid)]? =
        some (pool.get ⟨_, hidx⟩) := List.getElem?_eq_some.mpr ⟨hidx, rfl⟩
    have hpred : (fun a => jsTrim a.orderid == jsTrim m.orderid)
        (pool.get ⟨pool.findIdx fun a => jsTrim a.orderid == jsTrim m.orderid, hidx⟩) =
        true := @List.findIdx_get _ (fun a => jsTrim a.orderid == jsTrim m.orderid) pool hidx
    have hgm : pool.get ⟨_, hidx⟩ ∈ pool := List.get_mem pool _ hidx
    have heq : pool.get ⟨_, hidx⟩ = m :=
      List.inj_on_of_nodup_map hnd hgm hmpool (eq_of_beq hpred)
    refine ⟨m, pool.findIdx (fun a => jsTrim a.orderid == jsTrim m.orderid),
      hfm, ?_, ?_⟩
    · rw [hgetp, heq]
    · unfold findMatchingLunchMoneyTransaction
      simp only [hne', Bool.false_eq_true, if_false, hs]
      rw [hgetp, heq]

theorem decideUpdate_skip (cfg : Config) (ai : String → AIResponseText)
    (txn : LunchMoneyTransaction) (m : AmazonTransaction)
    (h : txn.category_id ≠ some cfg.defaultCategoryId ∨
      txn.is_group = true ∨ txn.group_id.isSome = true) :
    decideUpdate cfg ai txn m = (none, false) := by
  unfold decideUpdate
  by_cases hc : txn.category_id = some cfg.defaultCategoryId
  · rw [if_neg (not_not_intro hc)]
    have hg : (txn.is_group || txn.group_id.isSome) = true := by
      rcases h with h | h | h
      · exact absurd hc h
      · simp [h]
      · simp [h]
    rw [if_pos hg]
  · rw [if_pos hc]

theorem decideUpdate_eligible (cfg : Config) (ai : String → AIResponseText)
    (txn : LunchMoneyTransaction) (m : AmazonTransaction) (u : UpdateCall)
    (h : (decideUpdate cfg ai txn m).1 = some u) :
    u.txnId = txn.id ∧ txn.category_id = some cfg.defaultCategoryId ∧
      txn.is_group = false ∧ txn.group_id = none := by
  by_cases hc : txn.category_id = some cfg.defaultCategoryId
  case neg =>
    rw [decideUpdate_skip cfg ai txn m (Or.inl hc)] at h
    simp at h
  by_cases hg : txn.is_group = true
  case pos =>
    rw [decideUpdate_skip cfg ai txn m (Or.inr (Or.inl hg))] at h
    simp at h
  by_cases hgi : txn.group_id.isSome = true
  case pos =>
    rw [decideUpdate_skip cfg ai txn m (Or.inr (Or.inr hgi))] at h
    simp at h
  refine ⟨?_, hc, Bool.not_eq_true _ ▸ hg, Option.not_isSome_iff_eq_none.mp hgi⟩
  unfold decideUpdate at h
  rw [if_neg (not_not_intro hc)] at h
  rw [if_neg (by simp [Bool.not_eq_true _ ▸ hg, Option.not_isSome_iff_eq_none.mp hgi])] at h
  split at h
  · simp at h
  · split at h
    · split at h
      · cases h
        rfl
      · simp at h
    · split at h
      · simp at h
      · split at h
        · cases h
          rfl
        · simp at h

theorem decideUpdate_dryRun_none (cfg : Config) (ai : String → AIResponseText)
    (txn : LunchMoneyTransaction) (m : AmazonTransaction)
    (h : cfg.dryRun = true) :
    (decideUpdate cfg ai txn m).1 = none := by
  unfold decideUpdate
  split
  · rfl
  · split
    · rfl
    · split
      · rfl
      · split
        · simp [h]
        · split
          · rfl
          · simp [h]

theorem decideUpdate_snd_spec (cfg : Config) (ai : String → AIResponseText)
    (txn : LunchMoneyTransaction) (m : AmazonTransaction) :
    (decideUpdate cfg ai txn m).2 =
      (if txn.category_id ≠ some cfg.defaultCategoryId then false
       else if txn.is_group || txn.group_id.isSome then false
       else
         match deriveTarget cfg ai m with
         | .error _ => true
         | .ok _ => false) := by
  unfold decideUpdate
  split
  · rfl
  · split
    · rfl
    · cases hD : deriveTarget cfg ai m with
      | error e => rfl
      | ok p =>
        obtain ⟨t, s⟩ := p
        cases t with
        | none =>
          dsimp only
          split
          · rfl
          · rfl
        | some name =>
          dsimp only
          split
          · rfl
          · split
            · rfl
            · rfl

theorem processOne_pool_perm (cfg : Config) (ai : String → AIResponseText)
    (pool : List AmazonTransaction) (txn : LunchMoneyTransaction) :
    List.Perm ((processOne cfg ai pool txn).matched.toList ++
      (processOne cfg ai pool txn).pool) pool := by
  rcases processOne_matched_pool cfg ai pool txn with ⟨h1, h2⟩ | ⟨m, pool', hf, h1, h2⟩
  · rw [h1, h2]; simp
  · rw [h1, h2]
    obtain ⟨i, hget, hval⟩ := findMatching_eq_some txn pool m pool' hf
    rw [hval]
    simpa using perm_cons_eraseIdx pool i m hget

theorem processOne_skip (cfg : Config) (ai : String → AIResponseText)
    (pool : List AmazonTransaction) (txn : LunchMoneyTransaction)
    (m : AmazonTransaction) (pool' : List AmazonTransaction)
    (hskip : txn.category_id ≠ some cfg.defaultCategoryId ∨
      txn.is_group = true ∨ txn.group_id.isSome = true)
    (hm : findMatchingLunchMoneyTransaction txn pool = some (m, pool')) :
    processOne cfg ai pool txn = ⟨pool', some m, none, false⟩ := by
  unfold processOne
  rw [hm]
  dsimp only
  rw [decideUpdate_skip cfg ai txn m hskip]

theorem processOne_update_eligible (cfg : Config) (ai : String → AIResponseText)
    (pool : List AmazonTransaction) (txn : LunchMoneyTransaction) (u : UpdateCall)
    (h : (processOne cfg ai pool txn).update = some u) :
    u.txnId = txn.id ∧ txn.category_id = some cfg.defaultCategoryId ∧
      txn.is_group = false ∧ txn.group_id = none := by
  unfold processOne at h
  cases hm : findMatchingLunchMoneyTransaction txn pool with
  | none => rw [hm] at h; simp at h
  | some p =>
    rw [hm] at h
    exact decideUpdate_eligible cfg ai txn p.1 u h

theorem deriveTarget_dryRun_agnostic (b b' : Bool) (d : Int) (ow : List String)
    (cats : List LunchMoneyCategory) (ai : String → AIResponseText)
    (m : AmazonTransaction) :
    deriveTarget ⟨b, d, ow, cats⟩ ai m = deriveTarget ⟨b', d, ow, cats⟩ ai m := rfl

theorem decideUpdate_snd_dryRun_agnostic (b b' : Bool) (d : Int)
    (ow : List String) (cats : List LunchMoneyCategory)
    (ai : String → AIResponseText) (txn : LunchMoneyTransaction)
    (m : AmazonTransaction) :
    (decideUpdate ⟨b, d, ow, cats⟩ ai txn m).2 =
      (decideUpdate ⟨b', d, ow, cats⟩ ai txn m).2 := by
  rw [decideUpdate_snd_spec, decideUpdate_snd_spec,
    deriveTarget_dryRun_agnostic b b' d ow cats ai m]

theorem processOne_dryRun_step (b : Bool) (d : Int) (ow : List String)
    (cats : List LunchMoneyCategory) (ai : String → AIResponseText)
    (pool : List AmazonTransaction) (txn : LunchMoneyTransaction) :
    (processOne ⟨true, d, ow, cats⟩ ai pool txn).update = none ∧
    (processOne ⟨true, d, ow, cats⟩ ai pool txn).pool =
      (processOne ⟨b, d, ow, cats⟩ ai pool txn).pool ∧
    (processOne ⟨true, d, ow, cats⟩ ai pool txn).matched =
      (processOne ⟨b, d, ow, cats⟩ ai pool txn).matched ∧
    (processOne ⟨true, d, ow, cats⟩ ai pool txn).aborted =
      (processOne ⟨b, d, ow, cats⟩ ai pool txn).aborted := by
  unfold processOne
  cases hm : findMatchingLunchMoneyTransaction txn pool with
  | none => exact ⟨rfl, rfl, rfl, rfl⟩
  | some p =>
    exact ⟨decideUpdate_dryRun_none ⟨true, d, ow, cats⟩ ai txn p.1 rfl, rfl, rfl,
      decideUpdate_snd_dryRun_agnostic true b d ow cats ai txn p.1⟩

theorem runAll_cons (cfg : Config) (ai : String → AIResponseText)
    (t : LunchMoneyTransaction) (rest : List LunchMoneyTransaction)
    (pool : List AmazonTransaction) :
    runAll cfg ai (t :: rest) pool =
      if (processOne cfg ai pool t).aborted then
        ⟨(match (processOne cfg ai pool t).matched with
            | some m => [(t.id, m)]
            | none => []),
          (processOne cfg ai pool t).update.toList,
          (processOne cfg ai pool t).pool, true⟩
      else
        ⟨(match (processOne cfg ai pool t).matched with
            | some m => [(t.id, m)]
            | none => []) ++
            (runAll cfg ai rest (processOne cfg ai pool t).pool).bindings,
          (processOne cfg ai pool t).update.toList ++
            (runAll cfg ai rest (processOne cfg ai pool t).pool).updates,
          (runAll cfg ai rest (processOne cfg ai pool t).pool).pool,
          (runAll cfg ai rest (processOne cfg ai pool t).pool).aborted⟩ := rfl

/-! The claims. -/

/-- C1, counterexample: for the ledger amount 10.00 and an order whose total
is 5.00 but whose payment-entries text contains "10.00", the claimed
candidate predicate (total equality **or** payments-substring) holds, yet the
code's candidate set is empty — the filter at src/run.ts:271-275 only
compares normalized totals and never consults the payments text. -/
theorem c1_counterexample :
    candidateSpecC1 c1CexTxn c1CexOrder = true ∧
      possibleMatchesFor c1CexTxn [c1CexOrder] = [] := by
  constructor
  · decide
  · decide

/-- C1, amended: for every ledger transaction and order pool, the candidate
set consists exactly of the pool records whose total, normalized to two
decimal places, equals the normalized ledger amount; the payment-entries text
is not consulted. -/
theorem c1_candidate_filter_amended (txn : LunchMoneyTransaction)
    (pool : List AmazonTransaction) (a : AmazonTransaction) :
    a ∈ possibleMatchesFor txn pool ↔
      a ∈ pool ∧ toFixed2 a.total = toFixed2 txn.amount := by
  simp [possibleMatchesFor, List.mem_filter]

/-- C2, counterexample: with an empty `ownerNames` list and recipient "Bob",
`orderIsGift` returns true, while the claim demands false whenever
`ownerNames` is empty.  (In JS, `![]` is false — the `!ownerNames` guard only
protects against `undefined`, which would already have crashed at
`options.ownerNames.map`.) -/
theorem c2_counterexample :
    orderIsGift (normalizeOwnerNames []) c2CexOrder = true := by decide

/-- C2, amended: `orderIsGift` returns false when the order's recipient is
empty or the sentinel "0"; otherwise it returns true exactly when the
lowercased-and-trimmed recipient is not a member of the normalized
`ownerNames` list.  There is no emptiness guard on `ownerNames`: with an
empty list every order with a genuine recipient is classified as a gift. -/
theorem c2_gift_rule_amended (raw : List String) (t : AmazonTransaction) :
    orderIsGift (normalizeOwnerNames raw) t = true ↔
      t.recipient ≠ "" ∧ t.recipient ≠ "0" ∧
        jsTrim (jsToLower t.recipient) ∉ normalizeOwnerNames raw := by
  unfold orderIsGift
  by_cases h1 : t.recipient = ""
  · simp [h1]
  · by_cases h2 : t.recipient = "0"
    · simp [h1, h2]
    · simp [h1, h2]

/-- C3, counterexample: a response whose content `JSON.parse` rejects makes
`aiTransactionSummary` propagate the exception (src/run.ts:135 has no
try/catch), rather than producing an Unresolved outcome with no summary as
the claim states. -/
theorem c3_counterexample :
    aiTransactionSummary [] AIResponseText.invalidJson = Except.error () := rfl

/-- C3, amended: a response with missing/empty content yields the unresolved
outcome `{id := none, summary := ""}` without an exception, and a parseable
response whose id is NaN or absent from the candidate set degrades to a null
id with the summary retained; but a non-empty response that is not valid JSON
propagates the `JSON.parse` exception and aborts the run (no retry in either
case). -/
theorem c3_ai_failure_modes_amended (cats : List LunchMoneyCategory)
    (s : String) (cid : Int)
    (hAbsent : ∀ c ∈ promptCategoriesOf cats, c.id ≠ cid) :
    aiTransactionSummary (promptCategoriesOf cats) AIResponseText.noContent =
        Except.ok ⟨none, ""⟩ ∧
      aiTransactionSummary (promptCategoriesOf cats)
        (AIResponseText.parsed none s) = Except.ok ⟨none, s⟩ ∧
      aiTransactionSummary (promptCategoriesOf cats)
        (AIResponseText.parsed (some cid) s) = Except.ok ⟨none, s⟩ ∧
      aiTransactionSummary (promptCategoriesOf cats) AIResponseText.invalidJson =
        Except.error () := by
  have hany : ((promptCategoriesOf cats).any fun c => c.id == cid) = false := by
    simp only [List.any_eq_false]
    intro c hcmem
    simp [hAbsent c hcmem]
  refine ⟨rfl, rfl, ?_, rfl⟩
  unfold aiTransactionSummary
  simp [hany]

/-- C3, witness: the amended failure modes evaluated with the single
candidate category Food (id 5) and the absent id 99. -/
theorem c3_ai_failure_modes_witness :
    aiTransactionSummary (promptCategoriesOf [mkCategory 5 "Food"])
        AIResponseText.noContent = Except.ok ⟨none, ""⟩ ∧
      aiTransactionSummary (promptCategoriesOf [mkCategory 5 "Food"])
        (AIResponseText.parsed none "household goods") =
        Except.ok ⟨none, "household goods"⟩ ∧
      aiTransactionSummary (promptCategoriesOf [mkCategory 5 "Food"])
        (AIResponseText.parsed (some 99) "household goods") =
        Except.ok ⟨none, "household goods"⟩ ∧
      aiTransactionSummary (promptCategoriesOf [mkCategory 5 "Food"])
        AIResponseText.invalidJson = Except.error () :=
  c3_ai_failure_modes_amended [mkCategory 5 "Food"] "household goods" 99
    (by decide)

/-- C4, counterexample: with two candidates sharing the trimmed order id
"X-1" (days 0 and 9) and the ledger transaction on day 10, the
minimum-day-difference candidate is the day-9 record, but the record actually
spliced out and returned is the day-0 record — removal searches the pool by
trimmed order id (src/run.ts:290-292) and finds the earlier record first.
The claim's "selects the candidate with the minimum absolute day-difference
... and removes exactly that record" is therefore false here. -/
theorem c4_counterexample :
    findMatchingLunchMoneyTransaction c4CexTxn [c4CexOrderFar, c4CexOrderNear] =
      some (c4CexOrderFar, [c4CexOrderNear]) := by decide

/-- C4, amended: provided the trimmed order ids in the pool are pairwise
distinct, the Matcher selects from a non-empty candidate set the candidate
with the minimum absolute day-difference to the ledger date — ties broken by
original relative order in the pool, i.e. the positionally first candidate
attaining the minimum — and removes exactly that record from the pool (the
spec's 42.50/2024-03-09 example conforms; see the witness). -/
theorem c4_matcher_selection_amended (txn : LunchMoneyTransaction)
    (pool : List AmazonTransaction)
    (hnd : (pool.map fun a => jsTrim a.orderid).Nodup)
    (hne : possibleMatchesFor txn pool ≠ []) :
    ∃ sel, ∃ i : Nat,
      sel ∈ possibleMatchesFor txn pool ∧
      (∀ x ∈ possibleMatchesFor txn pool,
        dayDiff txn.date sel.date ≤ dayDiff txn.date x.date) ∧
      (∃ j : Nat, (possibleMatchesFor txn pool)[j]? = some sel ∧
        ∀ (k : Nat) (x : AmazonTransaction), k < j →
          (possibleMatchesFor txn pool)[k]? = some x →
          dayDiff txn.date sel.date < dayDiff txn.date x.date) ∧
      pool[i]? = some sel ∧
      findMatchingLunchMoneyTransaction txn pool = some (sel, pool.eraseIdx i) := by
  obtain ⟨sel, i, hfm, hget, hfind⟩ := findMatching_nodup_spec txn pool hnd hne
  exact ⟨sel, i, firstMinByKey_mem _ _ _ hfm, firstMinByKey_le _ _ _ hfm,
    firstMinByKey_first _ _ _ hfm, hget, hfind⟩

/-- C4, witness: the amended selection applied to the spec's example — ledger
amount 42.50 on 2024-03-10 against candidates of 2024-03-08 and 2024-03-09 —
together with the direct evaluation showing the 2024-03-09 order is selected
and removed while the 2024-03-08 order remains. -/
theorem c4_matcher_selection_witness :
    (∃ sel, ∃ i : Nat,
      sel ∈ possibleMatchesFor c4wTxn [c4wOrderMar08, c4wOrderMar09] ∧
      (∀ x ∈ possibleMatchesFor c4wTxn [c4wOrderMar08, c4wOrderMar09],
        dayDiff c4wTxn.date sel.date ≤ dayDiff c4wTxn.date x.date) ∧
      (∃ j : Nat,
        (possibleMatchesFor c4wTxn [c4wOrderMar08, c4wOrderMar09])[j]? =
          some sel ∧
        ∀ (k : Nat) (x : AmazonTransaction), k < j →
          (possibleMatchesFor c4wTxn [c4wOrderMar08, c4wOrderMar09])[k]? =
            some x →
          dayDiff c4wTxn.date sel.date < dayDiff c4wTxn.date x.date) ∧
      [c4wOrderMar08, c4wOrderMar09][i]? = some sel ∧
      findMatchingLunchMoneyTransaction c4wTxn [c4wOrderMar08, c4wOrderMar09] =
        some (sel, [c4wOrderMar08, c4wOrderMar09].eraseIdx i)) ∧
    findMatchingLunchMoneyTransaction c4wTxn [c4wOrderMar08, c4wOrderMar09] =
      some (c4wOrderMar09, [c4wOrderMar08]) :=
  ⟨c4_matcher_selection_amended c4wTxn [c4wOrderMar08, c4wOrderMar09]
    (by decide) (by decide), by decide⟩

/-- C5: over any run, the bound order records together with the final pool
are a permutation of the initial pool — every binding consumes exactly one
pool occurrence at the moment of matching, so no record occurrence is ever
bound to more than one ledger transaction nor remains a candidate for a later
one. -/
theorem c5_pool_removal_invariant (cfg : Config) (ai : String → AIResponseText)
    (txns : List LunchMoneyTransaction) (pool : List AmazonTransaction) :
    List.Perm ((runAll cfg ai txns pool).bindings.map Prod.snd ++
      (runAll cfg ai txns pool).pool) pool := by
  induction txns generalizing pool with
  | nil => simp [runAll]
  | cons t rest ih =>
    rw [runAll_cons]
    have hperm := processOne_pool_perm cfg ai pool t
    by_cases hab : (processOne cfg ai pool t).aborted
    · rw [if_pos hab]
      cases hmt : (processOne cfg ai pool t).matched with
      | none =>
        rw [hmt] at hperm
        simpa using hperm
      | some m =>
        rw [hmt] at hperm
        simpa using hperm
    · rw [if_neg hab]
      have ihp := ih (processOne cfg ai pool t).pool
      cases hmt : (processOne cfg ai pool t).matched with
      | none =>
        rw [hmt] at hperm
        simp only [Option.toList_none, List.nil_append] at hperm
        simpa using ihp.trans hperm
      | some m =>
        rw [hmt] at hperm
        simp only [Option.toList_some, List.singleton_append] at hperm
        simpa using (List.Perm.cons m ihp).trans hperm

/-- C6: the composed note is `"#<orderId> <existingNotes-or-empty>"` trimmed,
with `". <summary>"` appended when a (non-empty) summary is present, and then
truncated to at most 350 characters; `shouldUpdateNote` is true exactly when
the existing notes do not already contain the order id as a substring, so
re-running on an already-annotated transaction writes no duplicate
annotation. -/
theorem c6_note_composition (orderid : String) (existingNotes : Option String)
    (transactionSummary : Option String) :
    (newNote orderid existingNotes transactionSummary).length ≤ 350 ∧
      newNote orderid existingNotes transactionSummary =
        strTruncate 350
          (match transactionSummary with
           | some s =>
             if s = "" then jsTrim ("#" ++ orderid ++ " " ++ existingNotes.getD "")
             else jsTrim ("#" ++ orderid ++ " " ++ existingNotes.getD "") ++ ". " ++ s
           | none => jsTrim ("#" ++ orderid ++ " " ++ existingNotes.getD "")) ∧
      (shouldUpdateNote existingNotes orderid = true ↔
        strIncludes (existingNotes.getD "") orderid = false) := by
  refine ⟨?_, ?_, ?_⟩
  · show (strTruncate LUNCHMONEY_NOTE_LIMIT _).length ≤ 350
    show (String.mk _).length ≤ 350
    show (List.take LUNCHMONEY_NOTE_LIMIT _).length ≤ 350
    simp [List.length_take, LUNCHMONEY_NOTE_LIMIT]
  · unfold newNote
    cases transactionSummary with
    | none => rfl
    | some s =>
      by_cases hs : s = ""
      · simp [hs, LUNCHMONEY_NOTE_LIMIT]
      · simp [hs, LUNCHMONEY_NOTE_LIMIT]
  · cases h : strIncludes (existingNotes.getD "") orderid <;>
      simp [shouldUpdateNote, h]

/-- C7: every update call issued during a run belongs to a ledger transaction
in the input list that carries the configured default category id, is not a
group, and has no group id — transactions already categorized differently and
group transactions are never the subject of an update. -/
theorem c7_updates_only_eligible (cfg : Config) (ai : String → AIResponseText)
    (txns : List LunchMoneyTransaction) (pool : List AmazonTransaction) :
    ∀ u ∈ (runAll cfg ai txns pool).updates,
      ∃ t, t ∈ txns ∧ u.txnId = t.id ∧
        t.category_id = some cfg.defaultCategoryId ∧
        t.is_group = false ∧ t.group_id = none := by
  induction txns generalizing pool with
  | nil => intro u hu; simp [runAll] at hu
  | cons t rest ih =>
    intro u hu
    rw [runAll_cons] at hu
    by_cases hab : (processOne cfg ai pool t).aborted
    · rw [if_pos hab] at hu
      simp only at hu
      cases hupd : (processOne cfg ai pool t).update with
      | none => rw [hupd] at hu; simp at hu
      | some v =>
        rw [hupd] at hu
        simp only [Option.toList_some, List.mem_singleton] at hu
        subst hu
        obtain ⟨h1, h2, h3, h4⟩ := processOne_update_eligible cfg ai pool t u hupd
        exact ⟨t, List.mem_cons_self t rest, h1, h2, h3, h4⟩
    · rw [if_neg hab] at hu
      simp only [List.mem_append] at hu
      rcases hu with hu | hu
      · cases hupd : (processOne cfg ai pool t).update with
        | none => rw [hupd] at hu; simp at hu
        | some v =>
          rw [hupd] at hu
          simp only [Option.toList_some, List.mem_singleton] at hu
          subst hu
          obtain ⟨h1, h2, h3, h4⟩ := processOne_update_eligible cfg ai pool t u hupd
          exact ⟨t, List.mem_cons_self t rest, h1, h2, h3, h4⟩
      · obtain ⟨t', ht', hrest⟩ := ih (processOne cfg ai pool t).pool u hu
        exact ⟨t', List.mem_cons_of_mem t ht', hrest⟩

/-- C7, witness: in a live run over one eligible gift transaction the issued
update call is attributed to that transaction, which carries the default
category and is not a group. -/
theorem c7_updates_only_eligible_witness :
    ∃ t, t ∈ [c7wTxn] ∧
      (⟨7, some 2, some "#114-0007007"⟩ : UpdateCall).txnId = t.id ∧
      t.category_id = some c7wConfig.defaultCategoryId ∧
      t.is_group = false ∧ t.group_id = none :=
  c7_updates_only_eligible c7wConfig aiNoContent [c7wTxn] [c7wOrder]
    ⟨7, some 2, some "#114-0007007"⟩ (by decide)

/-- C8: with the dry-run flag set, a run issues no update calls at all, while
the match bindings, the pool consumption and the abort behaviour are exactly
those of the corresponding live run — the ledger is never mutated in dry-run
mode. -/
theorem c8_dry_run_frame (d : Int) (ow : List String)
    (cats : List LunchMoneyCategory) (ai : String → AIResponseText)
    (txns : List LunchMoneyTransaction) (pool : List AmazonTransaction) :
    (runAll ⟨true, d, ow, cats⟩ ai txns pool).updates = [] ∧
      (runAll ⟨true, d, ow, cats⟩ ai txns pool).bindings =
        (runAll ⟨false, d, ow, cats⟩ ai txns pool).bindings ∧
      (runAll ⟨true, d, ow, cats⟩ ai txns pool).pool =
        (runAll ⟨false, d, ow, cats⟩ ai txns pool).pool ∧
      (runAll ⟨true, d, ow, cats⟩ ai txns pool).aborted =
        (runAll ⟨false, d, ow, cats⟩ ai txns pool).aborted := by
  induction txns generalizing pool with
  | nil => exact ⟨rfl, rfl, rfl, rfl⟩
  | cons t rest ih =>
    obtain ⟨hupd, hpool, hmatched, habort⟩ :=
      processOne_dryRun_step false d ow cats ai pool t
    rw [runAll_cons, runAll_cons]
    by_cases hab : (processOne ⟨true, d, ow, cats⟩ ai pool t).aborted
    · rw [if_pos hab, if_pos (habort ▸ hab)]
      refine ⟨by simp [hupd], by rw [hmatched], hpool, rfl⟩
    · rw [if_neg hab, if_neg (habort ▸ hab)]
      obtain ⟨ih1, ih2, ih3, ih4⟩ := ih (processOne ⟨true, d, ow, cats⟩ ai pool t).pool
      refine ⟨?_, ?_, ?_, ?_⟩
      · simp [hupd, ih1]
      · rw [hmatched, ih2, hpool]
      · rw [ih3, hpool]
      · rw [ih4, hpool]

/-- C9: matching happens before the already-categorized and group checks — a
transaction that will be skipped (wrong current category, group flag, or
group id) still consumes its matched record: the rest of the run proceeds
with the reduced pool, the skipped transaction is bound to the record, and no
update is issued for it.  A later transaction that would have matched the
consumed record therefore cannot. -/
theorem c9_skip_consumes_match (cfg : Config) (ai : String → AIResponseText)
    (txn : LunchMoneyTransaction) (rest : List LunchMoneyTransaction)
    (pool : List AmazonTransaction) (m : AmazonTransaction)
    (pool' : List AmazonTransaction)
    (hskip : txn.category_id ≠ some cfg.defaultCategoryId ∨
      txn.is_group = true ∨ txn.group_id.isSome = true)
    (hm : findMatchingLunchMoneyTransaction txn pool = some (m, pool')) :
    runAll cfg ai (txn :: rest) pool =
      ⟨(txn.id, m) :: (runAll cfg ai rest pool').bindings,
        (runAll cfg ai rest pool').updates,
        (runAll cfg ai rest pool').pool,
        (runAll cfg ai rest pool').aborted⟩ := by
  rw [runAll_cons, processOne_skip cfg ai pool txn m pool' hskip hm]
  simp

/-- C9, witness: a group transaction matches the only pool record and
consumes it; the following pending transaction of the same amount is left
with an empty pool (its `runAll` over the emptied pool finds no match and
performs no update), even though it would have matched that record. -/
theorem c9_skip_consumes_match_witness :
    runAll c9wConfig aiNoContent [c9wGroupTxn, c9wPendingTxn] [c9wOrder] =
      ⟨(c9wGroupTxn.id, c9wOrder) ::
          (runAll c9wConfig aiNoContent [c9wPendingTxn] []).bindings,
        (runAll c9wConfig aiNoContent [c9wPendingTxn] []).updates,
        (runAll c9wConfig aiNoContent [c9wPendingTxn] []).pool,
        (runAll c9wConfig aiNoContent [c9wPendingTxn] []).aborted⟩ :=
  c9_skip_consumes_match c9wConfig aiNoContent c9wGroupTxn [c9wPendingTxn]
    [c9wOrder] c9wOrder [] (by decide) (by decide)

/-- C10: when a matched, eligible transaction derives a target category name
for which no non-group ledger category exists (for example the fixed gift
target "Gifts" when no such category is configured), the transaction is
skipped with no update at all — unlike the unresolved-target path, not even
a notes-only update is issued. -/
theorem c10_unresolvable_target_no_update (cfg : Config)
    (ai : String → AIResponseText) (pool : List AmazonTransaction)
    (txn : LunchMoneyTransaction) (m : AmazonTransaction)
    (pool' : List AmazonTransaction) (name : String) (summary : Option String)
    (hm : findMatchingLunchMoneyTransaction txn pool = some (m, pool'))
    (hc : txn.category_id = some cfg.defaultCategoryId)
    (hg : txn.is_group = false) (hgi : txn.group_id = none)
    (ht : deriveTarget cfg ai m = Except.ok (some name, summary))
    (hid : categoryNameToId cfg.categories name = none) :
    (processOne cfg ai pool txn).update = none := by
  unfold processOne
  rw [hm]
  dsimp only
  unfold decideUpdate
  rw [if_neg (not_not_intro hc), if_neg (by simp [hg, hgi]), ht]
  dsimp only
  rw [hid]

/-- C10, witness: a gift order targets "Gifts", which is absent from the
category list, so processing the matched eligible transaction issues no
update — not even a notes-only one. -/
theorem c10_unresolvable_target_no_update_witness :
    (processOne c10wConfig aiNoContent [c10wOrder] c10wTxn).update = none :=
  c10_unresolvable_target_no_update c10wConfig aiNoContent [c10wOrder] c10wTxn
    c10wOrder [] "Gifts" none (by decide) (by decide) (by decide) (by decide)
    rfl rfl

end LunchmoneyAmazon
